import Mathlib

/-!
Verification development for the legal-case-tracker data-access layer.

The repository stores cases, clients, hearings and activities per owning
user, exposes CRUD plus search and dashboard aggregation through a storage
abstraction (`MemStorage` in `server/storage.ts`, `DatabaseStorage` in
`server/storage.ts` and `server/db-storage.ts`), and routes in the Express
server and the Vercel handlers perform ownership checks and the hearing →
case denormalization.

Modelling conventions:
- JavaScript `Map<number, T>` is an association list `List (Nat × T)` with
  `Map.get/set/delete` as `mlookup`/`mset`/`merase`; `Array.from(map.values())`
  is `mvalues`.
- `Date` values are `Nat` timestamps in milliseconds; `toISOString().slice(0,10)`
  (the calendar date) is `dayOf`, division by `dayMs`.
- Strings that the code searches case-insensitively are `List Char`
  (`Str`), so `toLowerCase` is `Char.toLower` mapped, and `includes` is
  `containsSub`. Opaque text fields stay `String`.
- `Array.prototype.sort` with a comparator is modelled by
  `List.insertionSort` on the comparator's non-strict relation; only
  membership of the result matters to the properties below.
-/

/-- Text that the code lower-cases and searches, as a character list. -/
abbrev Str := List Char

/-- Model of JavaScript `s.toLowerCase()`. -/
def lowerStr (s : Str) : Str := s.map Char.toLower

/-- Whether the first list is an initial segment of the second. -/
def startsW : Str → Str → Bool
  | [], _ => true
  | _ :: _, [] => false
  | a :: as, b :: bs => a = b && startsW as bs

/-- Model of JavaScript `hay.includes(needle)`: `needle` occurs
contiguously in `hay`. -/
def containsSub : Str → Str → Bool
  | [], needle => needle.isEmpty
  | c :: t, needle => startsW needle (c :: t) || containsSub t needle

/-- Lookup in an association list modelling `Map.get`. -/
def mlookup (k : Nat) : List (Nat × α) → Option α
  | [] => none
  | (k', v) :: t => if k = k' then some v else mlookup k t

/-- Model of `Map.set`: replace in place when the key is present,
append otherwise. -/
def mset (k : Nat) (v : α) : List (Nat × α) → List (Nat × α)
  | [] => [(k, v)]
  | (k', v') :: t => if k = k' then (k, v) :: t else (k', v') :: mset k v t

/-- Model of the removal performed by `Map.delete`. -/
def merase (k : Nat) : List (Nat × α) → List (Nat × α)
  | [] => []
  | (k', v') :: t => if k = k' then merase k t else (k', v') :: merase k t

/-- Model of `Map.has` / the boolean result of `Map.delete`. -/
def mcontains (k : Nat) (m : List (Nat × α)) : Bool := (mlookup k m).isSome

/-- Model of `Array.from(map.values())`. -/
def mvalues (m : List (Nat × α)) : List α := m.map Prod.snd

theorem mlookup_mset_self (k : Nat) (v : α) (m : List (Nat × α)) :
    mlookup k (mset k v m) = some v := by
  induction m with
  | nil => simp [mset, mlookup]
  | cons h t ih =>
    obtain ⟨k', v'⟩ := h
    by_cases hk : k = k' <;> simp [mset, mlookup, hk, ih]

theorem mlookup_merase_self (k : Nat) (m : List (Nat × α)) :
    mlookup k (merase k m) = none := by
  induction m with
  | nil => simp [merase, mlookup]
  | cons h t ih =>
    obtain ⟨k', v'⟩ := h
    by_cases hk : k = k'
    · subst hk; simp [merase, ih]
    · simp [merase, mlookup, hk, ih]

theorem mem_mvalues_mset (k : Nat) (v : α) (m : List (Nat × α)) {x : α}
    (hx : x ∈ mvalues (mset k v m)) : x = v ∨ x ∈ mvalues m := by
  induction m with
  | nil => simpa [mset, mvalues] using hx
  | cons h t ih =>
    obtain ⟨k', v'⟩ := h
    by_cases hk : k = k'
    · subst hk
      rcases (by simpa [mset, mvalues] using hx : x = v ∨ x ∈ mvalues t) with h1 | h1
      · exact Or.inl h1
      · exact Or.inr (by simp [mvalues] at h1 ⊢; tauto)
    · rcases (by simpa [mset, mvalues, hk] using hx :
          x = v' ∨ x ∈ mvalues (mset k v t)) with h1 | h1
      · exact Or.inr (by simp [mvalues, h1])
      · rcases ih h1 with h2 | h2
        · exact Or.inl h2
        · exact Or.inr (by simp [mvalues] at h2 ⊢; tauto)

/-! ## Entity model (shared/schema.ts) -/

/-- A row of the `cases` table. Optional (nullable) columns are `Option`;
`date`/`timestamp` columns are `Nat` timestamps. -/
structure Case where
  id : Nat
  applicationNumber : Option String
  caseNumber : Str
  firNumber : Option String
  plaintiffName : Option String
  defendantName : Option String
  title : Str
  description : Option String
  courtName : String
  courtType : Option String
  status : String
  filingDate : Option Nat
  nextHearingDate : Option Nat
  clientId : Option Nat
  documents : Option String
  previousMessages : Option String
  userId : String
  createdAt : Nat
  updatedAt : Nat
deriving DecidableEq, Repr

/-- A row of the `clients` table. -/
structure Client where
  id : Nat
  clientUuid : String
  name : Str
  contactNumber : Option Str
  email : Option Str
  address : Option String
  userId : String
  createdAt : Nat
  updatedAt : Nat
deriving DecidableEq, Repr

/-- A row of the `hearings` table. -/
structure Hearing where
  id : Nat
  caseId : Nat
  hearingDate : Nat
  time : Option String
  notes : Option String
  status : Option String
  userId : String
  createdAt : Nat
  updatedAt : Nat
deriving DecidableEq, Repr

/-- A row of the `activities` table. -/
structure Activity where
  id : Nat
  action : String
  details : Option String
  entityType : String
  entityId : Nat
  userId : String
  createdAt : Nat
deriving DecidableEq, Repr

/-- `InsertCase`: `insertCaseSchema` omits id, createdAt, updatedAt, userId. -/
structure InsertCase where
  applicationNumber : Option String := none
  caseNumber : Str
  firNumber : Option String := none
  plaintiffName : Option String := none
  defendantName : Option String := none
  title : Str
  description : Option String := none
  courtName : String
  courtType : Option String := none
  status : String := "Pending"
  filingDate : Option Nat := none
  nextHearingDate : Option Nat := none
  clientId : Option Nat := none
  documents : Option String := none
  previousMessages : Option String := none
deriving DecidableEq, Repr

/-- `Partial<InsertCase>`: every insertable column may be absent. -/
structure CasePatch where
  applicationNumber : Option (Option String) := none
  caseNumber : Option Str := none
  firNumber : Option (Option String) := none
  plaintiffName : Option (Option String) := none
  defendantName : Option (Option String) := none
  title : Option Str := none
  description : Option (Option String) := none
  courtName : Option String := none
  courtType : Option (Option String) := none
  status : Option String := none
  filingDate : Option (Option Nat) := none
  nextHearingDate : Option (Option Nat) := none
  clientId : Option (Option Nat) := none
  documents : Option (Option String) := none
  previousMessages : Option (Option String) := none
deriving DecidableEq, Repr

/-- `InsertHearing`: `insertHearingSchema` omits id, createdAt, updatedAt, userId. -/
structure InsertHearing where
  caseId : Nat
  hearingDate : Nat
  time : Option String := none
  notes : Option String := none
  status : Option String := none
deriving DecidableEq, Repr

/-- `Partial<InsertHearing>`, the payload of the hearing-update endpoint. -/
structure HearingPatch where
  caseId : Option Nat := none
  hearingDate : Option Nat := none
  time : Option (Option String) := none
  notes : Option (Option String) := none
  status : Option (Option String) := none
deriving DecidableEq, Repr

/-- `InsertActivity`: `insertActivitySchema` omits id, createdAt, userId. -/
structure InsertActivity where
  action : String
  details : Option String := none
  entityType : String
  entityId : Nat
deriving DecidableEq, Repr

/-- The mutable state of `MemStorage`: one `Map` per entity plus the shared
`nextId` counter. -/
structure StoreState where
  cases : List (Nat × Case)
  clients : List (Nat × Client)
  hearings : List (Nat × Hearing)
  activities : List (Nat × Activity)
  nextId : Nat
deriving DecidableEq, Repr

/-- A fresh `MemStorage` (the seeded test user lives in the separate
`users` map, which no claim touches). -/
def emptyStore : StoreState := ⟨[], [], [], [], 1⟩

/-- The record returned by `getDashboardStats`. -/
structure DashboardStats where
  totalCases : Nat
  activeCases : Nat
  totalClients : Nat
  hearingsThisWeek : Nat
deriving DecidableEq, Repr

/-- Milliseconds per day. -/
def dayMs : Nat := 86400000

/-- Calendar day of a timestamp, i.e. `toISOString().slice(0, 10)` up to
the order-preserving bijection between date strings and day numbers. -/
def dayOf (t : Nat) : Nat := t / dayMs

/-! ## MemStorage (server/storage.ts, first document) -/

namespace MemStorage

/-- Comparator of `getCases` and friends:
`(a, b) => new Date(b.updatedAt).getTime() - new Date(a.updatedAt).getTime()`,
i.e. most recently updated first. -/
def sortByUpdatedDesc (l : List Case) : List Case :=
  l.insertionSort fun a b => b.updatedAt ≤ a.updatedAt

/-- Same comparator on client rows. -/
def sortClientsByUpdatedDesc (l : List Client) : List Client :=
  l.insertionSort fun a b => b.updatedAt ≤ a.updatedAt

/-- Comparator of the hearing queries: soonest hearing date first. -/
def sortByHearingDateAsc (l : List Hearing) : List Hearing :=
  l.insertionSort fun a b => a.hearingDate ≤ b.hearingDate

/-- `MemStorage.getCases`. -/
def getCases (s : StoreState) (userId : String) : List Case :=
  sortByUpdatedDesc ((mvalues s.cases).filter fun c => c.userId = userId)

/-- `MemStorage.getCase`. -/
def getCase (s : StoreState) (id : Nat) : Option Case :=
  mlookup id s.cases

/-- `MemStorage.searchCases`. -/
def searchCases (s : StoreState) (userId : String) (query : Str) : List Case :=
  let lowerQuery := lowerStr query
  sortByUpdatedDesc ((mvalues s.cases).filter fun c =>
    c.userId = userId &&
      (containsSub (lowerStr c.caseNumber) lowerQuery ||
       containsSub (lowerStr c.title) lowerQuery))

/-- `MemStorage.filterCasesByStatus`. -/
def filterCasesByStatus (s : StoreState) (userId status : String) : List Case :=
  sortByUpdatedDesc ((mvalues s.cases).filter fun c =>
    c.userId = userId && c.status = status)

/-- `MemStorage.createCase`: assign `nextId`, stamp both timestamps, insert. -/
def createCase (s : StoreState) (data : InsertCase) (userId : String) (now : Nat) :
    Case × StoreState :=
  let id := s.nextId
  let newCase : Case :=
    { id := id
      applicationNumber := data.applicationNumber
      caseNumber := data.caseNumber
      firNumber := data.firNumber
      plaintiffName := data.plaintiffName
      defendantName := data.defendantName
      title := data.title
      description := data.description
      courtName := data.courtName
      courtType := data.courtType
      status := data.status
      filingDate := data.filingDate
      nextHearingDate := data.nextHearingDate
      clientId := data.clientId
      documents := data.documents
      previousMessages := data.previousMessages
      userId := userId
      createdAt := now
      updatedAt := now }
  (newCase, { s with cases := mset id newCase s.cases, nextId := s.nextId + 1 })

/-- The merge `{ ...existingCase, ...data, updatedAt: new Date() }`. -/
def applyCasePatch (c : Case) (p : CasePatch) (now : Nat) : Case :=
  { id := c.id
    applicationNumber := p.applicationNumber.getD c.applicationNumber
    caseNumber := p.caseNumber.getD c.caseNumber
    firNumber := p.firNumber.getD c.firNumber
    plaintiffName := p.plaintiffName.getD c.plaintiffName
    defendantName := p.defendantName.getD c.defendantName
    title := p.title.getD c.title
    description := p.description.getD c.description
    courtName := p.courtName.getD c.courtName
    courtType := p.courtType.getD c.courtType
    status := p.status.getD c.status
    filingDate := p.filingDate.getD c.filingDate
    nextHearingDate := p.nextHearingDate.getD c.nextHearingDate
    clientId := p.clientId.getD c.clientId
    documents := p.documents.getD c.documents
    previousMessages := p.previousMessages.getD c.previousMessages
    userId := c.userId
    createdAt := c.createdAt
    updatedAt := now }

/-- `MemStorage.updateCase`: merge the provided fields into the existing
row and re-stamp `updatedAt`; `undefined` when the row is absent. -/
def updateCase (s : StoreState) (id : Nat) (p : CasePatch) (now : Nat) :
    Option Case × StoreState :=
  match mlookup id s.cases with
  | none => (none, s)
  | some existingCase =>
    let updatedCase := applyCasePatch existingCase p now
    (some updatedCase, { s with cases := mset id updatedCase s.cases })

/-- `MemStorage.deleteCase`: `Map.delete` returns whether the key existed. -/
def deleteCase (s : StoreState) (id : Nat) : Bool × StoreState :=
  (mcontains id s.cases, { s with cases := merase id s.cases })

/-- `MemStorage.getClients`. -/
def getClients (s : StoreState) (userId : String) : List Client :=
  sortClientsByUpdatedDesc ((mvalues s.clients).filter fun c => c.userId = userId)

/-- `MemStorage.getClient`. -/
def getClient (s : StoreState) (id : Nat) : Option Client :=
  mlookup id s.clients

/-- `MemStorage.searchClients`. Name and email are compared lower-cased
against the lower-cased query; `contactNumber` is compared against the raw
query (`c.contactNumber?.includes(query)`). -/
def searchClients (s : StoreState) (userId : String) (query : Str) : List Client :=
  let lowerQuery := lowerStr query
  sortClientsByUpdatedDesc ((mvalues s.clients).filter fun c =>
    c.userId = userId &&
      (containsSub (lowerStr c.name) lowerQuery ||
       (match c.email with
        | some e => containsSub (lowerStr e) lowerQuery
        | none => false) ||
       (match c.contactNumber with
        | some p => containsSub p query
        | none => false)))

/-- `MemStorage.getHearings`. -/
def getHearings (s : StoreState) (userId : String) : List Hearing :=
  sortByHearingDateAsc ((mvalues s.hearings).filter fun h => h.userId = userId)

/-- `MemStorage.getHearing`. -/
def getHearing (s : StoreState) (id : Nat) : Option Hearing :=
  mlookup id s.hearings

/-- `MemStorage.getHearingsByCase`: filters on `caseId` only — no owner
column is consulted. -/
def getHearingsByCase (s : StoreState) (caseId : Nat) : List Hearing :=
  sortByHearingDateAsc ((mvalues s.hearings).filter fun h => h.caseId = caseId)

/-- `MemStorage.createHearing`. -/
def createHearing (s : StoreState) (data : InsertHearing) (userId : String)
    (now : Nat) : Hearing × StoreState :=
  let id := s.nextId
  let newHearing : Hearing :=
    { id := id
      caseId := data.caseId
      hearingDate := data.hearingDate
      time := data.time
      notes := data.notes
      status := data.status
      userId := userId
      createdAt := now
      updatedAt := now }
  (newHearing, { s with hearings := mset id newHearing s.hearings, nextId := s.nextId + 1 })

/-- The merge `{ ...existingHearing, ...data, updatedAt: new Date() }`. -/
def applyHearingPatch (h : Hearing) (p : HearingPatch) (now : Nat) : Hearing :=
  { id := h.id
    caseId := p.caseId.getD h.caseId
    hearingDate := p.hearingDate.getD h.hearingDate
    time := p.time.getD h.time
    notes := p.notes.getD h.notes
    status := p.status.getD h.status
    userId := h.userId
    createdAt := h.createdAt
    updatedAt := now }

/-- `MemStorage.updateHearing`. -/
def updateHearing (s : StoreState) (id : Nat) (p : HearingPatch) (now : Nat) :
    Option Hearing × StoreState :=
  match mlookup id s.hearings with
  | none => (none, s)
  | some existingHearing =>
    let updatedHearing := applyHearingPatch existingHearing p now
    (some updatedHearing, { s with hearings := mset id updatedHearing s.hearings })

/-- `MemStorage.deleteHearing`. -/
def deleteHearing (s : StoreState) (id : Nat) : Bool × StoreState :=
  (mcontains id s.hearings, { s with hearings := merase id s.hearings })

/-- `MemStorage.createActivity`. -/
def createActivity (s : StoreState) (data : InsertActivity) (userId : String)
    (now : Nat) : Activity × StoreState :=
  let id := s.nextId
  let newActivity : Activity :=
    { id := id
      action := data.action
      details := data.details
      entityType := data.entityType
      entityId := data.entityId
      userId := userId
      createdAt := now }
  (newActivity, { s with activities := mset id newActivity s.activities, nextId := s.nextId + 1 })

/-- `MemStorage.getDashboardStats`: `activeCases` counts status `Active`
or `Scheduled`; the week window compares instant timestamps against
`new Date()` and `new Date(today.getTime() + 7*24*60*60*1000)`. -/
def getDashboardStats (s : StoreState) (userId : String) (now : Nat) :
    DashboardStats :=
  let userCases := (mvalues s.cases).filter fun c => c.userId = userId
  let userClients := (mvalues s.clients).filter fun c => c.userId = userId
  let userHearings := (mvalues s.hearings).filter fun h => h.userId = userId
  let weekFromNow := now + 7 * 24 * 60 * 60 * 1000
  let hearingsThisWeek := (userHearings.filter fun h =>
    now ≤ h.hearingDate && h.hearingDate ≤ weekFromNow).length
  { totalCases := userCases.length
    activeCases := (userCases.filter fun c =>
      c.status = "Active" || c.status = "Scheduled").length
    totalClients := userClients.length
    hearingsThisWeek := hearingsThisWeek }

end MemStorage

/-! ## DatabaseStorage dashboard aggregation

Two database implementations exist: the one in `server/storage.ts`
(second document) and the one in `server/db-storage.ts` used by the Vercel
handlers. Row filtering by the SQL `WHERE` clauses is modelled on the same
`StoreState`. -/

namespace DatabaseStorage

/-- `DatabaseStorage.getDashboardStats` from `server/storage.ts`:
`activeCases` counts status exactly `Active`; the week window runs from
`CURRENT_DATE` (midnight of the current day) to `endOfWeek`
(`today.setDate(getDate() + 7)`, the current instant plus seven days). -/
def getDashboardStats (s : StoreState) (userId : String) (now : Nat) :
    DashboardStats :=
  let endOfWeek := now + 7 * dayMs
  { totalCases := ((mvalues s.cases).filter fun c => c.userId = userId).length
    activeCases := ((mvalues s.cases).filter fun c =>
      c.userId = userId && c.status = "Active").length
    totalClients := ((mvalues s.clients).filter fun c => c.userId = userId).length
    hearingsThisWeek := ((mvalues s.hearings).filter fun h =>
      h.userId = userId && dayOf now * dayMs ≤ h.hearingDate &&
        h.hearingDate ≤ endOfWeek).length }

end DatabaseStorage

namespace VercelDb

/-- `DatabaseStorage.getDashboardStats` from `server/db-storage.ts`:
`activeCases` counts `Active` or `Scheduled`; `hearingsThisWeek` compares
the `YYYY-MM-DD` strings `todayStr = today.toISOString().slice(0,10)` and
`weekFromNowStr` against the stored date column, i.e. calendar days. -/
def getDashboardStats (s : StoreState) (userId : String) (now : Nat) :
    DashboardStats :=
  let weekFromNow := now + 7 * dayMs
  { totalCases := ((mvalues s.cases).filter fun c => c.userId = userId).length
    activeCases := ((mvalues s.cases).filter fun c =>
      c.userId = userId && (c.status = "Active" || c.status = "Scheduled")).length
    totalClients := ((mvalues s.clients).filter fun c => c.userId = userId).length
    hearingsThisWeek := ((mvalues s.hearings).filter fun h =>
      h.userId = userId && dayOf now ≤ dayOf h.hearingDate &&
        dayOf h.hearingDate ≤ dayOf weekFromNow).length }

end VercelDb

/-- Modelled from the spec: the `hearingsThisWeek` definition of §4.3 —
the number of the owner's hearings whose hearing date falls within the
inclusive calendar-date window `[today, today + 7 days]`. This is the
spec-side comparison target, not a translation of any one implementation. -/
def calendarWeekHearingCount (s : StoreState) (userId : String) (now : Nat) : Nat :=
  ((mvalues s.hearings).filter fun h =>
    h.userId = userId && dayOf now ≤ dayOf h.hearingDate &&
      dayOf h.hearingDate ≤ dayOf now + 7).length

/-! ## Route handlers (server/routes.ts and api handlers)

The Express routes and the Vercel handlers perform the same sequence of
storage calls for the operations the claims mention; `now` stands for the
`new Date()` observations of one request. -/

namespace Routes

/-- Outcome of `POST /api/hearings`. -/
inductive HearingPostResult where
  | created : Hearing → HearingPostResult
  | caseNotFound : HearingPostResult
  | notAuthorized : HearingPostResult
deriving DecidableEq, Repr

/-- Outcome of `PUT /api/hearings/:id`. -/
inductive HearingPutResult where
  | updated : Option Hearing → HearingPutResult
  | hearingNotFound : HearingPutResult
  | notAuthorized : HearingPutResult
deriving DecidableEq, Repr

/-- `POST /api/cases`: validate, create, log activity. -/
def postCase (s : StoreState) (userId : String) (body : InsertCase) (now : Nat) :
    Case × StoreState :=
  let r := MemStorage.createCase s body userId now
  let s2 := (MemStorage.createActivity r.2
    { action := "Created Case"
      details := some "Created new case"
      entityType := "case"
      entityId := r.1.id } userId now).2
  (r.1, s2)

/-- `POST /api/hearings`: look up the referenced case, reject with 404 when
absent and 403 when its owner differs from the session user, then insert
the hearing, overwrite the parent case's `nextHearingDate` and `status`,
and log an activity. -/
def postHearing (s : StoreState) (userId : String) (body : InsertHearing)
    (now : Nat) : HearingPostResult × StoreState :=
  match MemStorage.getCase s body.caseId with
  | none => (.caseNotFound, s)
  | some caseData =>
    if caseData.userId ≠ userId then (.notAuthorized, s)
    else
      let r := MemStorage.createHearing s body userId now
      let s2 := (MemStorage.updateCase r.2 body.caseId
        { nextHearingDate := some (some body.hearingDate)
          status := some "Scheduled" } now).2
      let s3 := (MemStorage.createActivity s2
        { action := "Scheduled Hearing"
          details := some "Scheduled hearing"
          entityType := "hearing"
          entityId := r.1.id } userId now).2
      (.created r.1, s3)

/-- `PUT /api/hearings/:id`: verify the existing hearing's owner, merge the
partial body, and — only when the body carries a `hearingDate` — overwrite
the parent case's `nextHearingDate` (the status field is not written). The
new `caseId`, when the body carries one, is not ownership-checked. -/
def putHearing (s : StoreState) (userId : String) (hearingId : Nat)
    (body : HearingPatch) (now : Nat) : HearingPutResult × StoreState :=
  match MemStorage.getHearing s hearingId with
  | none => (.hearingNotFound, s)
  | some existingHearing =>
    if existingHearing.userId ≠ userId then (.notAuthorized, s)
    else
      let r := MemStorage.updateHearing s hearingId body now
      let s2 :=
        match body.hearingDate with
        | some d =>
          (MemStorage.updateCase r.2 existingHearing.caseId
            { nextHearingDate := some (some d) } now).2
        | none => r.2
      let s3 := (MemStorage.createActivity s2
        { action := "Updated Hearing"
          details := some "Updated hearing"
          entityType := "hearing"
          entityId := hearingId } userId now).2
      (.updated r.1, s3)

/-- `GET /api/hearings`: `req.query.caseId ? parseInt(...) : undefined`,
then `if (caseId)` — so a parsed `0` is falsy and falls back to the
owner-scoped list, and any other parsed `caseId` dispatches to
`getHearingsByCase` with no ownership verification. -/
def getHearingsEndpoint (s : StoreState) (userId : String)
    (caseIdParam : Option Nat) : List Hearing :=
  match caseIdParam with
  | some caseId =>
    if caseId ≠ 0 then MemStorage.getHearingsByCase s caseId
    else MemStorage.getHearings s userId
  | none => MemStorage.getHearings s userId

end Routes

/-! ## Sample rows used by witnesses and counterexamples -/

/-- A case row with neutral field values, adjusted per use. -/
def baseCase : Case :=
  { id := 1, applicationNumber := none, caseNumber := [], firNumber := none
    plaintiffName := none, defendantName := none, title := [], description := none
    courtName := "", courtType := none, status := "Pending", filingDate := none
    nextHearingDate := none, clientId := none, documents := none
    previousMessages := none, userId := "A", createdAt := 0, updatedAt := 0 }

/-- A client row with neutral field values. -/
def baseClient : Client :=
  { id := 1, clientUuid := "", name := [], contactNumber := none, email := none
    address := none, userId := "A", createdAt := 0, updatedAt := 0 }

/-- A hearing row with neutral field values. -/
def baseHearing : Hearing :=
  { id := 1, caseId := 1, hearingDate := 0, time := none, notes := none
    status := none, userId := "A", createdAt := 0, updatedAt := 0 }

/-! ## Claims -/

/-- Claim C2: the per-owner list operations `getCases`, `getClients` and
`getHearings` return only rows whose `userId` equals the requested owner
`A`; for any distinct owner `B`, no row owned by `B` appears. -/
theorem c2_lists_owner_scoped (s : StoreState) (A B : String) (hAB : A ≠ B) :
    (∀ r ∈ MemStorage.getCases s A, r.userId = A ∧ r.userId ≠ B) ∧
    (∀ r ∈ MemStorage.getClients s A, r.userId = A ∧ r.userId ≠ B) ∧
    (∀ r ∈ MemStorage.getHearings s A, r.userId = A ∧ r.userId ≠ B) := by
  refine ⟨?_, ?_, ?_⟩ <;> intro r hr <;>
    simp only [MemStorage.getCases, MemStorage.getClients, MemStorage.getHearings,
      MemStorage.sortByUpdatedDesc, MemStorage.sortClientsByUpdatedDesc,
      MemStorage.sortByHearingDateAsc, List.mem_insertionSort,
      List.mem_filter, decide_eq_true_eq] at hr <;>
    exact ⟨hr.2, hr.2 ▸ hAB⟩

/-- Witness for C2 on a concrete two-owner store. -/
theorem c2_lists_owner_scoped_witness :
    ("A" : String) ≠ "B" ∧
    { baseCase with userId := "A" } ∈
      MemStorage.getCases ⟨[(1, { baseCase with userId := "A" }),
        (2, { baseCase with id := 2, userId := "B" })], [], [], [], 3⟩ "A" ∧
    ({ baseCase with userId := "A" }).userId = "A" ∧
    ({ baseCase with userId := "A" }).userId ≠ "B" := by
  refine ⟨by decide, by decide, ?_, ?_⟩
  · exact ((c2_lists_owner_scoped ⟨[(1, { baseCase with userId := "A" }),
      (2, { baseCase with id := 2, userId := "B" })], [], [], [], 3⟩ "A" "B"
      (by decide)).1 { baseCase with userId := "A" } (by decide)).1
  · exact ((c2_lists_owner_scoped ⟨[(1, { baseCase with userId := "A" }),
      (2, { baseCase with id := 2, userId := "B" })], [], [], [], 3⟩ "A" "B"
      (by decide)).1 { baseCase with userId := "A" } (by decide)).2

/-- Claim C7: deleting a case makes a subsequent `getCase` return
not-found, deleting the same id again returns `false`, and `deleteCase`
returns `true` exactly when a row with that id existed. -/
theorem c7_delete_semantics (s : StoreState) (id : Nat) :
    MemStorage.getCase (MemStorage.deleteCase s id).2 id = none ∧
    (MemStorage.deleteCase (MemStorage.deleteCase s id).2 id).1 = false ∧
    ((MemStorage.deleteCase s id).1 = true ↔ (MemStorage.getCase s id).isSome) := by
  refine ⟨?_, ?_, ?_⟩
  · simp [MemStorage.getCase, MemStorage.deleteCase, mlookup_merase_self]
  · simp [MemStorage.deleteCase, mcontains, mlookup_merase_self]
  · simp [MemStorage.deleteCase, MemStorage.getCase, mcontains]

/-- Claim C10: the hearings GET endpoint, given a nonzero `caseId` query
parameter, returns exactly the hearings whose `caseId` matches — with no
condition on the hearing's owner or the requesting user, so another user's
hearing is included whenever its `caseId` matches. -/
theorem c10_hearings_by_case_unfiltered (s : StoreState) (u : String)
    (caseId : Nat) (h0 : caseId ≠ 0) (h : Hearing) :
    h ∈ Routes.getHearingsEndpoint s u (some caseId) ↔
      h ∈ mvalues s.hearings ∧ h.caseId = caseId := by
  simp [Routes.getHearingsEndpoint, h0, MemStorage.getHearingsByCase,
    MemStorage.sortByHearingDateAsc, List.mem_insertionSort, List.mem_filter]

/-- Witness for C10: user `A` requesting `caseId = 1` receives the hearing
owned by `B`. -/
theorem c10_hearings_by_case_unfiltered_witness :
    (1 : Nat) ≠ 0 ∧
    ({ baseHearing with userId := "B" } ∈
      Routes.getHearingsEndpoint ⟨[], [], [(1, { baseHearing with userId := "B" })], [], 2⟩
        "A" (some 1) ↔
      { baseHearing with userId := "B" } ∈
        mvalues (⟨[], [], [(1, { baseHearing with userId := "B" })], [], 2⟩ : StoreState).hearings ∧
      ({ baseHearing with userId := "B" }).caseId = 1) := by
  exact ⟨by decide,
    c10_hearings_by_case_unfiltered ⟨[], [], [(1, { baseHearing with userId := "B" })], [], 2⟩
      "A" 1 (by decide) { baseHearing with userId := "B" }⟩

/-- Claim C5: `updateCase` on an existing row merges only the provided
fields and re-stamps the updated timestamp: every field the patch leaves
out keeps its pre-update value, every field the patch provides takes the
provided value, and `id`, `userId`, `createdAt` are never touched. -/
theorem c5_update_frame (s : StoreState) (id : Nat) (p : CasePatch) (now : Nat)
    (old : Case) (hold : MemStorage.getCase s id = some old) :
    ∃ c', (MemStorage.updateCase s id p now).1 = some c' ∧
      MemStorage.getCase (MemStorage.updateCase s id p now).2 id = some c' ∧
      c'.updatedAt = now ∧ c'.id = old.id ∧ c'.userId = old.userId ∧
      c'.createdAt = old.createdAt ∧
      (p.applicationNumber = none → c'.applicationNumber = old.applicationNumber) ∧
      (p.caseNumber = none → c'.caseNumber = old.caseNumber) ∧
      (p.firNumber = none → c'.firNumber = old.firNumber) ∧
      (p.plaintiffName = none → c'.plaintiffName = old.plaintiffName) ∧
      (p.defendantName = none → c'.defendantName = old.defendantName) ∧
      (p.title = none → c'.title = old.title) ∧
      (p.description = none → c'.description = old.description) ∧
      (p.courtName = none → c'.courtName = old.courtName) ∧
      (p.courtType = none → c'.courtType = old.courtType) ∧
      (p.status = none → c'.status = old.status) ∧
      (p.filingDate = none → c'.filingDate = old.filingDate) ∧
      (p.nextHearingDate = none → c'.nextHearingDate = old.nextHearingDate) ∧
      (p.clientId = none → c'.clientId = old.clientId) ∧
      (p.documents = none → c'.documents = old.documents) ∧
      (p.previousMessages = none → c'.previousMessages = old.previousMessages) ∧
      (∀ v, p.applicationNumber = some v → c'.applicationNumber = v) ∧
      (∀ v, p.caseNumber = some v → c'.caseNumber = v) ∧
      (∀ v, p.firNumber = some v → c'.firNumber = v) ∧
      (∀ v, p.plaintiffName = some v → c'.plaintiffName = v) ∧
      (∀ v, p.defendantName = some v → c'.defendantName = v) ∧
      (∀ v, p.title = some v → c'.title = v) ∧
      (∀ v, p.description = some v → c'.description = v) ∧
      (∀ v, p.courtName = some v → c'.courtName = v) ∧
      (∀ v, p.courtType = some v → c'.courtType = v) ∧
      (∀ v, p.status = some v → c'.status = v) ∧
      (∀ v, p.filingDate = some v → c'.filingDate = v) ∧
      (∀ v, p.nextHearingDate = some v → c'.nextHearingDate = v) ∧
      (∀ v, p.clientId = some v → c'.clientId = v) ∧
      (∀ v, p.documents = some v → c'.documents = v) ∧
      (∀ v, p.previousMessages = some v → c'.previousMessages = v) := by
  have hold' : mlookup id s.cases = some old := hold
  refine ⟨MemStorage.applyCasePatch old p now, ?_, ?_, rfl, rfl, rfl, rfl,
    ?_, ?_, ?_, ?_, ?_, ?_, ?_, ?_, ?_, ?_, ?_, ?_, ?_, ?_, ?_,
    ?_, ?_, ?_, ?_, ?_, ?_, ?_, ?_, ?_, ?_, ?_, ?_, ?_, ?_, ?_⟩
  · simp [MemStorage.updateCase, hold']
  · simp [MemStorage.updateCase, hold', MemStorage.getCase, mlookup_mset_self]
  all_goals
    first
      | (intro h; simp [MemStorage.applyCasePatch, h])
      | (intro v h; simp [MemStorage.applyCasePatch, h])

/-- Witness for C5: a status-only patch on a one-row store touches the
status and the timestamp and preserves, e.g., the title and owner. -/
theorem c5_update_frame_witness :
    ∃ c', (MemStorage.updateCase ⟨[(1, baseCase)], [], [], [], 2⟩ 1
        { status := some "Closed" } 9).1 = some c' ∧
      MemStorage.getCase (MemStorage.updateCase ⟨[(1, baseCase)], [], [], [], 2⟩ 1
        { status := some "Closed" } 9).2 1 = some c' ∧
      c'.updatedAt = 9 ∧ c'.id = baseCase.id ∧ c'.userId = baseCase.userId ∧
      c'.createdAt = baseCase.createdAt ∧
      c'.title = baseCase.title ∧ c'.status = "Closed" := by
  obtain ⟨c', h1, h2, h3, h4, h5, h6,
      _, _, _, _, _, hTitle,
      _, _, _, _, _, _, _, _, _,
      _, _, _, _, _, _, _, _, _,
      hStatus, _⟩ :=
    c5_update_frame ⟨[(1, baseCase)], [], [], [], 2⟩ 1 { status := some "Closed" } 9
      baseCase (by decide)
  exact ⟨c', h1, h2, h3, h4, h5, h6, hTitle rfl, hStatus "Closed" rfl⟩

/-- Claim C1: when the session user owns the referenced case, the
hearing-creation endpoint succeeds and afterwards the parent case's
`nextHearingDate` is the posted hearing date and its `status` is
`Scheduled`, whatever the status was before. -/
theorem c1_post_hearing_schedules_case (s : StoreState) (u : String)
    (body : InsertHearing) (now : Nat) (c : Case)
    (hc : MemStorage.getCase s body.caseId = some c) (hu : c.userId = u) :
    ∃ h' c', (Routes.postHearing s u body now).1 = .created h' ∧
      MemStorage.getCase (Routes.postHearing s u body now).2 body.caseId = some c' ∧
      c'.nextHearingDate = some body.hearingDate ∧
      c'.status = "Scheduled" := by
  have hc' : mlookup body.caseId s.cases = some c := hc
  refine ⟨{ id := s.nextId, caseId := body.caseId, hearingDate := body.hearingDate,
            time := body.time, notes := body.notes, status := body.status,
            userId := u, createdAt := now, updatedAt := now },
    MemStorage.applyCasePatch c
      { nextHearingDate := some (some body.hearingDate), status := some "Scheduled" } now,
    ?_, ?_, rfl, rfl⟩
  · simp [Routes.postHearing, MemStorage.getCase, hc', hu, MemStorage.createHearing]
  · simp [Routes.postHearing, MemStorage.getCase, hc', hu, MemStorage.createHearing,
      MemStorage.createActivity, MemStorage.updateCase, mlookup_mset_self]

/-- Witness for C1: posting a hearing dated 5 for the case with prior
status `Pending` owned by the poster. -/
theorem c1_post_hearing_schedules_case_witness :
    ∃ h' c', (Routes.postHearing ⟨[(1, baseCase)], [], [], [], 2⟩ "A"
        { caseId := 1, hearingDate := 5 } 7).1 = .created h' ∧
      MemStorage.getCase (Routes.postHearing ⟨[(1, baseCase)], [], [], [], 2⟩ "A"
        { caseId := 1, hearingDate := 5 } 7).2 1 = some c' ∧
      c'.nextHearingDate = some 5 ∧
      c'.status = "Scheduled" :=
  c1_post_hearing_schedules_case ⟨[(1, baseCase)], [], [], [], 2⟩ "A"
    { caseId := 1, hearingDate := 5 } 7 baseCase (by decide) (by decide)

/-- Claim C8: when the hearing-update endpoint is given a new hearing
date, it overwrites the parent case's `nextHearingDate` with that date
and leaves the case's `status` (and owner) unchanged. -/
theorem c8_put_hearing_keeps_status (s : StoreState) (u : String)
    (hearingId : Nat) (body : HearingPatch) (now : Nat) (eh : Hearing)
    (c : Case) (d : Nat)
    (hh : MemStorage.getHearing s hearingId = some eh) (hu : eh.userId = u)
    (hd : body.hearingDate = some d)
    (hc : MemStorage.getCase s eh.caseId = some c) :
    ∃ c', MemStorage.getCase (Routes.putHearing s u hearingId body now).2 eh.caseId
        = some c' ∧
      c'.nextHearingDate = some d ∧
      c'.status = c.status ∧
      c'.userId = c.userId := by
  have hh' : mlookup hearingId s.hearings = some eh := hh
  have hc' : mlookup eh.caseId s.cases = some c := hc
  refine ⟨MemStorage.applyCasePatch c { nextHearingDate := some (some d) } now,
    ?_, rfl, rfl, rfl⟩
  simp [Routes.putHearing, MemStorage.getHearing, hh', hu, hd,
    MemStorage.updateHearing, MemStorage.updateCase, MemStorage.createActivity,
    MemStorage.getCase, hc', mlookup_mset_self]

/-- Witness for C8: changing only the hearing date of hearing 1 updates its
parent case's `nextHearingDate` to 11 and keeps the `Pending` status. -/
theorem c8_put_hearing_keeps_status_witness :
    ∃ c', MemStorage.getCase (Routes.putHearing
        ⟨[(1, baseCase)], [], [(2, { baseHearing with id := 2 })], [], 3⟩ "A" 2
        { hearingDate := some 11 } 7).2 1 = some c' ∧
      c'.nextHearingDate = some 11 ∧
      c'.status = baseCase.status ∧
      c'.userId = baseCase.userId :=
  c8_put_hearing_keeps_status
    ⟨[(1, baseCase)], [], [(2, { baseHearing with id := 2 })], [], 3⟩ "A" 2
    { hearingDate := some 11 } 7 { baseHearing with id := 2 } baseCase 11
    (by decide) (by decide) (by decide) (by decide)

/-! ## Dashboard aggregation claims -/

/-- Splitting a filtered count over a pointwise-disjoint disjunction. -/
theorem length_filter_and_or (l : List α) (p q r : α → Bool)
    (hdis : ∀ a, ¬(q a = true ∧ r a = true)) :
    (l.filter fun a => p a && (q a || r a)).length =
      (l.filter fun a => p a && q a).length +
      (l.filter fun a => p a && r a).length := by
  induction l with
  | nil => simp
  | cons a t ih =>
    rcases hp : p a <;> rcases hq : q a <;> rcases hr : r a <;>
      simp [List.filter, hp, hq, hr, ih] <;>
      first
        | omega
        | exact absurd ⟨hq, hr⟩ (hdis a)

/-- The three case-status strings involved never coincide. -/
theorem case_status_disjoint (c : Case) :
    ¬((decide (c.status = "Active")) = true ∧
      (decide (c.status = "Scheduled")) = true) := by
  rintro ⟨h1, h2⟩
  simp only [decide_eq_true_eq] at h1 h2
  rw [h1] at h2
  exact absurd h2 (by decide)

/-- Counterexample to claim C3: for a user whose only case has status
`Scheduled`, the spec's "exactly Active" count is 0, yet the in-memory
implementation reports `activeCases = 1` while the `server/storage.ts`
database implementation reports 0 — so `activeCases` is not the
exactly-`Active` count and the two implementations disagree. -/
theorem c3_active_cases_counterexample :
    ((mvalues (⟨[(1, { baseCase with status := "Scheduled" })], [], [], [], 2⟩ :
        StoreState).cases).filter fun c =>
      c.userId = "A" && c.status = "Active").length = 0 ∧
    (MemStorage.getDashboardStats
      ⟨[(1, { baseCase with status := "Scheduled" })], [], [], [], 2⟩ "A" 0).activeCases = 1 ∧
    (DatabaseStorage.getDashboardStats
      ⟨[(1, { baseCase with status := "Scheduled" })], [], [], [], 2⟩ "A" 0).activeCases = 0 := by
  refine ⟨by decide, by decide, by decide⟩

/-- Claim C3 as amended: the in-memory `activeCases` counts the owner's
cases with status `Active` or `Scheduled`, the `server/storage.ts`
database implementation counts only exactly `Active`, and the two differ
by exactly the number of the owner's `Scheduled` cases — so they agree
only when the owner has none. -/
theorem c3_active_cases_amended (s : StoreState) (u : String) (nowM nowD : Nat) :
    (MemStorage.getDashboardStats s u nowM).activeCases =
      (DatabaseStorage.getDashboardStats s u nowD).activeCases +
        ((mvalues s.cases).filter fun c =>
          c.userId = u && c.status = "Scheduled").length := by
  simp only [MemStorage.getDashboardStats, DatabaseStorage.getDashboardStats,
    List.filter_filter]
  have hcomm : (List.filter (fun a =>
        (decide (a.status = "Active") || decide (a.status = "Scheduled")) &&
          decide (a.userId = u)) (mvalues s.cases)) =
      List.filter (fun a => decide (a.userId = u) &&
        (decide (a.status = "Active") || decide (a.status = "Scheduled")))
        (mvalues s.cases) :=
    List.filter_congr fun a _ => Bool.and_comm _ _
  rw [hcomm]
  exact length_filter_and_or (mvalues s.cases)
    (fun c => decide (c.userId = u))
    (fun c => decide (c.status = "Active"))
    (fun c => decide (c.status = "Scheduled"))
    case_status_disjoint

/-- Counterexample to claim C4: at noon of day 0 (`now = 43200000` ms), a
hearing dated day 0 (midnight, `hearingDate = 0`) lies inside the
inclusive calendar-date window `[today, today + 7]` — the spec-side count
is 1 — yet the in-memory `getDashboardStats` reports
`hearingsThisWeek = 0`, because it compares instant timestamps and the
hearing's midnight timestamp is before `new Date()`. -/
theorem c4_hearings_week_counterexample :
    calendarWeekHearingCount
      ⟨[], [], [(1, baseHearing)], [], 2⟩ "A" 43200000 = 1 ∧
    (MemStorage.getDashboardStats
      ⟨[], [], [(1, baseHearing)], [], 2⟩ "A" 43200000).hearingsThisWeek = 0 := by
  refine ⟨by decide, by decide⟩

/-- Claim C4 as amended: the `db-storage.ts` database implementation's
`hearingsThisWeek` equals the spec's inclusive calendar-date window count
`[today, today + 7 days]` for every store, owner and current time (so
there a hearing dated today is counted and one dated today + 10 days is
not); the in-memory implementation instead compares instant timestamps
against the moment of the request. -/
theorem c4_hearings_week_amended (s : StoreState) (u : String) (now : Nat) :
    (VercelDb.getDashboardStats s u now).hearingsThisWeek =
      calendarWeekHearingCount s u now := by
  have hday : dayOf (now + 7 * dayMs) = dayOf now + 7 := by
    unfold dayOf
    exact Nat.add_mul_div_right now 7 (by decide)
  simp only [VercelDb.getDashboardStats, calendarWeekHearingCount, hday]

/-! ## Search claims -/

/-- The client of the C6 counterexample: its only searchable text that can
match the query is the contact number `"PH"`. -/
def c6Client : Client :=
  { baseClient with name := ['x'], contactNumber := some ['P', 'H'] }

/-- Counterexample to claim C6: the query `"ph"` is a case-insensitive
substring of the client's phone `"PH"`, the client belongs to the
searching owner and is in the store, yet `searchClients` does not return
it — `contactNumber` is matched against the raw query, case-sensitively. -/
theorem c6_search_counterexample :
    c6Client ∈ mvalues (⟨[], [(1, c6Client)], [], [], 2⟩ : StoreState).clients ∧
    c6Client.userId = "A" ∧
    containsSub (lowerStr (c6Client.contactNumber.getD [])) (lowerStr ['p', 'h']) = true ∧
    c6Client ∉ MemStorage.searchClients ⟨[], [(1, c6Client)], [], [], 2⟩ "A" ['p', 'h'] := by
  refine ⟨by decide, by decide, by decide, by decide⟩

/-- Claim C6 as amended: search returns exactly the owner's rows matching
the query as a case-insensitive substring of case number or title for
cases, and of name or email for clients, while a client's phone is matched
as a case-sensitive substring of the raw query. -/
theorem c6_search_amended (s : StoreState) (u : String) (q : Str)
    (rc : Case) (rl : Client) :
    (rc ∈ MemStorage.searchCases s u q ↔
      rc ∈ mvalues s.cases ∧ rc.userId = u ∧
        (containsSub (lowerStr rc.caseNumber) (lowerStr q) = true ∨
         containsSub (lowerStr rc.title) (lowerStr q) = true)) ∧
    (rl ∈ MemStorage.searchClients s u q ↔
      rl ∈ mvalues s.clients ∧ rl.userId = u ∧
        (containsSub (lowerStr rl.name) (lowerStr q) = true ∨
         (∃ e, rl.email = some e ∧ containsSub (lowerStr e) (lowerStr q) = true) ∨
         (∃ ph, rl.contactNumber = some ph ∧ containsSub ph q = true))) := by
  constructor
  · simp [MemStorage.searchCases, MemStorage.sortByUpdatedDesc,
      List.mem_insertionSort, List.mem_filter, and_assoc]
  · rcases hE : rl.email with _ | e <;> rcases hP : rl.contactNumber with _ | ph <;>
      simp [MemStorage.searchClients, MemStorage.sortClientsByUpdatedDesc,
        List.mem_insertionSort, List.mem_filter, hE, hP, and_assoc, or_assoc]

/-! ## Hearing/case ownership claims -/

/-- Case-creation body used by the C9 trace. -/
def c9CaseBody : InsertCase := { caseNumber := [], title := [], courtName := "" }

/-- State after user A creates a case (id 1) through the case endpoint. -/
def c9s1 : StoreState := (Routes.postCase emptyStore "A" c9CaseBody 0).2

/-- State after user B creates a case (id 3) through the case endpoint. -/
def c9s2 : StoreState := (Routes.postCase c9s1 "B" c9CaseBody 0).2

/-- Hearing body referencing A's own case. -/
def c9HearingBody : InsertHearing := { caseId := 1, hearingDate := 0 }

/-- State after user A creates a hearing (id 5) for case 1 through the
hearing-creation endpoint; the ownership check passes. -/
def c9s3 : StoreState := (Routes.postHearing c9s2 "A" c9HearingBody 0).2

/-- The hearing-update body that re-points A's hearing at B's case. -/
def c9Patch : HearingPatch := { caseId := some 3 }

/-- State after user A updates hearing 5, changing only its `caseId`
to B's case, through the hearing-update endpoint. -/
def c9s4 : StoreState := (Routes.putHearing c9s3 "A" 5 c9Patch 0).2

/-- Counterexample to claim C9: through the public endpoints alone —
A creates case 1, B creates case 3, A creates hearing 5 for case 1, then
A updates hearing 5 setting `caseId := 3` — every call succeeds, and the
resulting state holds a hearing owned by A whose `caseId` resolves to a
case owned by B. The update endpoint never re-checks ownership of the new
`caseId`, so the claimed all-reachable-states invariant fails. -/
theorem c9_ownership_counterexample :
    (Routes.postHearing c9s2 "A" c9HearingBody 0).1 =
      .created { id := 5, caseId := 1, hearingDate := 0, time := none,
                 notes := none, status := none, userId := "A",
                 createdAt := 0, updatedAt := 0 } ∧
    (Routes.putHearing c9s3 "A" 5 c9Patch 0).1 =
      .updated (some { id := 5, caseId := 3, hearingDate := 0, time := none,
                       notes := none, status := none, userId := "A",
                       createdAt := 0, updatedAt := 0 }) ∧
    (MemStorage.getHearing c9s4 5).map (fun h => (h.userId, h.caseId)) =
      some ("A", 3) ∧
    (MemStorage.getCase c9s4 3).map (·.userId) = some "B" := by
  refine ⟨by decide, by decide, by decide, by decide⟩

/-- Claim C9 as amended: the hearing-creation endpoint does enforce the
ownership boundary — whenever it reports success, the created hearing is
owned by the requesting user and its `caseId` resolves, in the resulting
state, to a case owned by that same user. (The invariant does not extend
to all API-reachable states, because the hearing-update endpoint accepts
a `caseId` change without re-checking ownership.) -/
theorem c9_creation_ownership_amended (s : StoreState) (u : String)
    (body : InsertHearing) (now : Nat) (h' : Hearing)
    (hok : (Routes.postHearing s u body now).1 = .created h') :
    h'.userId = u ∧ h'.caseId = body.caseId ∧
    ∃ c', MemStorage.getCase (Routes.postHearing s u body now).2 body.caseId
        = some c' ∧ c'.userId = u := by
  rcases hm : MemStorage.getCase s body.caseId with _ | c
  · rw [Routes.postHearing] at hok
    rw [hm] at hok
    exact absurd hok (by simp)
  · have hm' : mlookup body.caseId s.cases = some c := hm
    by_cases hu : c.userId = u
    · have hred := hok
      rw [Routes.postHearing, hm] at hred
      simp only [hu, ne_eq, not_true_eq_false, if_false, ite_false] at hred
      have hh' : h' = (MemStorage.createHearing s body u now).1 := by
        cases hred
        rfl
      subst hh'
      refine ⟨rfl, rfl, MemStorage.applyCasePatch c
        { nextHearingDate := some (some body.hearingDate),
          status := some "Scheduled" } now, ?_, hu⟩
      simp [Routes.postHearing, MemStorage.getCase, hm', hu,
        MemStorage.createHearing, MemStorage.createActivity,
        MemStorage.updateCase, mlookup_mset_self]
    · rw [Routes.postHearing, hm] at hok
      simp only [hu, ne_eq, not_false_eq_true, if_true, ite_true] at hok
      exact absurd hok (by simp)

/-- Witness for the amended C9 theorem on a concrete successful creation. -/
theorem c9_creation_ownership_amended_witness :
    ({ id := 1, caseId := 1, hearingDate := 4, time := none, notes := none,
       status := none, userId := "A", createdAt := 0,
       updatedAt := 0 } : Hearing).userId = "A" ∧
    ({ id := 1, caseId := 1, hearingDate := 4, time := none, notes := none,
       status := none, userId := "A", createdAt := 0,
       updatedAt := 0 } : Hearing).caseId = ({ caseId := 1, hearingDate := 4 } : InsertHearing).caseId ∧
    ∃ c', MemStorage.getCase (Routes.postHearing ⟨[(1, baseCase)], [], [], [], 1⟩ "A"
        { caseId := 1, hearingDate := 4 } 0).2 ({ caseId := 1, hearingDate := 4 } : InsertHearing).caseId
        = some c' ∧ c'.userId = "A" :=
  c9_creation_ownership_amended ⟨[(1, baseCase)], [], [], [], 1⟩ "A"
    { caseId := 1, hearingDate := 4 } 0
    { id := 1, caseId := 1, hearingDate := 4, time := none, notes := none,
      status := none, userId := "A", createdAt := 0, updatedAt := 0 }
    (by decide)
